import Mathlib

/-!
Verification of the MAPAQ risk-intelligence probability engine.

This file shallowly embeds, in exact rational arithmetic, the parts of
`src/probability_model.py` (class `ConditionalProbabilityEngine`) and
`src/regulation_adapter.py` (class `RegulationAdapter`) that the verified
properties are about, and proves or refutes those properties.

Conventions of the embedding:
* Python `float` arithmetic is modelled by `ℚ` (the computations at stake
  are field operations, so exact arithmetic is the reference semantics;
  "sums to 1 within 1e-6" is settled by proving the sum is exactly 1).
* Python `int` is modelled by `ℤ`.
* `datetime` values are modelled by `ℤ` (only their total order is used).
* Python `dict` is modelled by an association list preserving insertion
  order (`lookupA` / `insertA` mirror `d[k]` / `d[k] = v`).
* A Python expression that can raise (`KeyError` on a missing dict/column
  key, `ZeroDivisionError` on `x / 0.0`) is modelled in `Option`, with
  `none` standing for the raised exception.
-/

namespace Mapaq

/-- Association-list lookup, mirroring Python `d[k]` / `k in d`. -/
def lookupA {κ α : Type} [BEq κ] (l : List (κ × α)) (k : κ) : Option α :=
  (l.find? (fun p => p.1 == k)).map Prod.snd

/-- Association-list store, mirroring Python `d[k] = v`: overwrite in place
if the key is present, otherwise append (insertion order semantics). -/
def insertA {κ α : Type} [BEq κ] (l : List (κ × α)) (k : κ) (v : α) : List (κ × α) :=
  if (l.find? (fun p => p.1 == k)).isSome then
    l.map (fun p => if p.1 == k then (k, v) else p)
  else
    l ++ [(k, v)]

/-- First-occurrence deduplication, mirroring `pandas.Series.unique`. -/
def uniqueList {α : Type} [BEq α] (l : List α) : List α :=
  l.foldl (fun acc x => if acc.contains x then acc else acc ++ [x]) []

/-- Checked division: `divQ a b` is `none` exactly when Python `a / b`
raises `ZeroDivisionError`. -/
def divQ (a b : ℚ) : Option ℚ :=
  if b = 0 then none else some (a / b)

/-- ASCII model of Python `str.title()`: a letter is uppercased when the
preceding character is not a letter, lowercased otherwise. -/
def pyTitle (s : String) : String :=
  String.mk
    ((s.data.foldl
        (fun (acc : List Char × Bool) c =>
          if c.isAlpha then
            ((if acc.2 then c.toLower else c.toUpper) :: acc.1, true)
          else
            (c :: acc.1, false))
        ([], false)).1.reverse)

/-- A three-way probability mapping `{'Low': _, 'Medium': _, 'High': _}`
in its fixed insertion order. -/
structure Dist where
  low : ℚ
  medium : ℚ
  high : ℚ
  deriving DecidableEq, Repr

/-- `sum(d.values())` for the three-key distribution dict. -/
def sumD (d : Dist) : ℚ :=
  d.low + d.medium + d.high

/-- All three entries are nonnegative. -/
def nonnegD (d : Dist) : Prop :=
  0 ≤ d.low ∧ 0 ≤ d.medium ∧ 0 ≤ d.high

/-- A well-formed probability distribution: nonnegative entries summing
to exactly 1. -/
def goodD (d : Dist) : Prop :=
  nonnegD d ∧ sumD d = 1

instance (d : Dist) : Decidable (nonnegD d) := by
  unfold nonnegD; infer_instance

instance (d : Dist) : Decidable (goodD d) := by
  unfold goodD; infer_instance

/-- `{k: v/total for k, v in d.items()}` with `total = sum(d.values())`;
`none` models the `ZeroDivisionError` raised when the total is zero. -/
def normalizeD (d : Dist) : Option Dist :=
  if sumD d = 0 then none
  else some ⟨d.low / sumD d, d.medium / sumD d, d.high / sumD d⟩

/-- One regulation record, reduced to the two fields the adjustment
computations read (`effective_date` as an integer day stamp, and
`impact_weight`). -/
structure Regulation where
  effective_date : ℤ
  impact_weight : ℚ
  deriving DecidableEq, Repr

/-- `RegulationAdapter.get_applicable_regulations`: the records whose
`effective_date` is at most the inspection date. -/
def get_applicable_regulations (regs : List Regulation) (inspection_date : ℤ) :
    List Regulation :=
  regs.filter (fun reg => reg.effective_date ≤ inspection_date)

/-- `RegulationAdapter.adjust_risk_probabilities`: identity when no record
is applicable, otherwise a mean-impact-driven mass shift followed by
renormalization.  `none` models the `ZeroDivisionError` of the final
renormalization. -/
def adjust_risk_probabilities (regs : List Regulation) (probabilities : Dist)
    (inspection_date : ℤ) : Option Dist :=
  let applicable_regs := get_applicable_regulations regs inspection_date
  if applicable_regs.isEmpty then some probabilities
  else
    let avg_impact : ℚ :=
      (applicable_regs.map (fun reg => reg.impact_weight)).sum / applicable_regs.length
    let adjusted_probs : Dist :=
      if avg_impact > 1 then
        let shift_factor := (avg_impact - 1) * 0.5
        ⟨probabilities.low * (1 - shift_factor * 0.5),
         probabilities.medium * (1 - shift_factor),
         probabilities.high + shift_factor * probabilities.medium⟩
      else if avg_impact < 1 then
        let shift_factor := (1 - avg_impact) * 0.5
        ⟨probabilities.low + shift_factor * probabilities.medium,
         probabilities.medium * (1 - shift_factor),
         probabilities.high * (1 - shift_factor * 0.5)⟩
      else probabilities
    normalizeD adjusted_probs

/-- The mutable parameter state of `ConditionalProbabilityEngine`, together
with its regulation adapter (`none` when no adapter is attached). -/
structure Engine where
  prior_risk : Dist
  cuisine_risk_probs : List (String × Dist)
  staff_thresholds : List (String × ℤ × ℤ)
  infraction_weights : List (ℤ × ℚ)
  temporal_adjustment_enabled : Bool
  regulation_adapter : Option (List Regulation)
  deriving DecidableEq, Repr

/-- Default `prior_risk` table from `__init__`. -/
def defaultPriorRisk : Dist := ⟨0.60, 0.30, 0.10⟩

/-- Default `cuisine_risk_probs` table from `__init__`. -/
def defaultCuisineRiskProbs : List (String × Dist) :=
  [("Sushi", ⟨0.30, 0.40, 0.30⟩),
   ("Fast Food", ⟨0.50, 0.35, 0.15⟩),
   ("Fine Dining", ⟨0.70, 0.25, 0.05⟩),
   ("Bakery", ⟨0.75, 0.20, 0.05⟩),
   ("BBQ", ⟨0.55, 0.30, 0.15⟩),
   ("Other", ⟨0.60, 0.30, 0.10⟩)]

/-- Default `staff_thresholds` table from `__init__`. -/
def defaultStaffThresholds : List (String × ℤ × ℤ) :=
  [("small", (0, 5)), ("medium", (6, 15)), ("large", (16, 100))]

/-- Default `infraction_weights` table from `__init__`. -/
def defaultInfractionWeights : List (ℤ × ℚ) :=
  [(0, 0.0), (1, 0.15), (2, 0.30), (3, 0.50), (4, 0.70)]

/-- `ConditionalProbabilityEngine.__init__`: `adapterResult` is `some regs`
when the `RegulationAdapter` module is importable and its construction
succeeds, loading `regs` from `regulations.json`; temporal adjustment is
enabled only when requested and the adapter construction succeeded. -/
def mkEngine (enable_temporal_adjustment : Bool)
    (adapterResult : Option (List Regulation)) : Engine :=
  { prior_risk := defaultPriorRisk
    cuisine_risk_probs := defaultCuisineRiskProbs
    staff_thresholds := defaultStaffThresholds
    infraction_weights := defaultInfractionWeights
    temporal_adjustment_enabled := enable_temporal_adjustment && adapterResult.isSome
    regulation_adapter :=
      if enable_temporal_adjustment then adapterResult else none }

/-- `_get_cuisine_probability`: normalize the cuisine string, look it up
in the table, fall back to the `'Other'` entry; `none` models the
`KeyError` raised when even `'Other'` is absent. -/
def _get_cuisine_probability (e : Engine) (cuisine_type : String) : Option Dist :=
  let ct := pyTitle cuisine_type.trim
  match lookupA e.cuisine_risk_probs ct with
  | some d => some d
  | none => lookupA e.cuisine_risk_probs "Other"

/-- `_calculate_staff_factor`. -/
def _calculate_staff_factor (staff_count : ℤ) : ℚ :=
  if staff_count ≤ 5 then -0.10
  else if staff_count ≤ 15 then 0.0
  else 0.15

/-- `_calculate_infraction_factor`: cap at 4, then a dictionary `get` with
default `0.0`. -/
def _calculate_infraction_factor (e : Engine) (infractions : ℤ) : ℚ :=
  let i := if infractions ≥ 4 then 4 else infractions
  (lookupA e.infraction_weights i).getD 0.0

/-- `_calculate_kitchen_factor`. -/
def _calculate_kitchen_factor (kitchen_size : ℚ) : ℚ :=
  if kitchen_size < 20 then -0.05
  else if kitchen_size < 50 then 0.0
  else 0.10

/-- The local `region_factors` table of `_calculate_region_factor`. -/
def regionFactors : List (String × ℚ) :=
  [("montreal", 0.05), ("quebec", 0.0), ("laval", 0.02), ("gatineau", 0.0)]

/-- `_calculate_region_factor`: normalize, then a dictionary `get` with
default `0.0`. -/
def _calculate_region_factor (region : String) : ℚ :=
  (lookupA regionFactors region.trim.toLower).getD 0.0

/-- `calculate_risk_probability`: cuisine prior, the four multiplicative
`(1+factor)` adjustments applied identically to the three labels,
renormalization, then the optional temporal adjustment.  `none` models an
uncaught exception (missing `'Other'` entry, or division by a zero
total). -/
def calculate_risk_probability (e : Engine) (cuisine_type : String)
    (staff_count infractions_history : ℤ) (kitchen_size : ℚ) (region : String)
    (inspection_date : ℤ) : Option Dist :=
  match _get_cuisine_probability e cuisine_type with
  | none => none
  | some cuisine_probs =>
    let staff_factor := _calculate_staff_factor staff_count
    let infraction_factor := _calculate_infraction_factor e infractions_history
    let kitchen_factor := _calculate_kitchen_factor kitchen_size
    let region_factor := _calculate_region_factor region
    let final_probs : Dist :=
      ⟨cuisine_probs.low * (1 + staff_factor) * (1 + infraction_factor) *
         (1 + kitchen_factor) * (1 + region_factor),
       cuisine_probs.medium * (1 + staff_factor) * (1 + infraction_factor) *
         (1 + kitchen_factor) * (1 + region_factor),
       cuisine_probs.high * (1 + staff_factor) * (1 + infraction_factor) *
         (1 + kitchen_factor) * (1 + region_factor)⟩
    match normalizeD final_probs with
    | none => none
    | some normalized =>
      if e.temporal_adjustment_enabled then
        match e.regulation_adapter with
        | some regs => adjust_risk_probabilities regs normalized inspection_date
        | none => some normalized
      else some normalized

/-- Python `max(probs, key=probs.get)` over the insertion order
`[Low, Medium, High]`: the current best is replaced only on a strictly
greater value, so ties keep the earlier label. -/
def argmaxD (d : Dist) : String × ℚ :=
  let b1 : String × ℚ := ("Low", d.low)
  let b2 : String × ℚ := if d.medium > b1.2 then ("Medium", d.medium) else b1
  if d.high > b2.2 then ("High", d.high) else b2

/-- `predict_risk_level`: the label of maximal probability together with
that probability. -/
def predict_risk_level (e : Engine) (cuisine_type : String)
    (staff_count infractions_history : ℤ) (kitchen_size : ℚ) (region : String)
    (inspection_date : ℤ) : Option (String × ℚ) :=
  (calculate_risk_probability e cuisine_type staff_count infractions_history
      kitchen_size region inspection_date).map argmaxD

/-- A tabular dataset: pandas column index plus rows as ordered
column/value association lists. -/
structure DataFrame where
  cols : List String
  rows : List (List (String × String))
  deriving DecidableEq, Repr

/-- Number of rows whose value in column `c` equals `v`
(`len(data[data[c] == v])`). -/
def countMatch (df : DataFrame) (c v : String) : ℕ :=
  df.rows.countP (fun r => lookupA r c == some v)

/-- `calculate_conditional_probability`: empirical `P(A|B)`;
returns `0.0` on empty data, missing columns, or when `B` never occurs. -/
def calculate_conditional_probability (event_a event_b : String) (df : DataFrame)
    (column_a column_b : String) : Option ℚ :=
  if df.rows.isEmpty then some 0
  else if column_a ∉ df.cols ∨ column_b ∉ df.cols then some 0
  else
    let count_b := countMatch df column_b event_b
    if count_b = 0 then some 0
    else do
      let prob_b ← divQ count_b df.rows.length
      let count_a_and_b :=
        df.rows.countP
          (fun r => lookupA r column_a == some event_a && lookupA r column_b == some event_b)
      let prob_a_and_b ← divQ count_a_and_b df.rows.length
      divQ prob_a_and_b prob_b

/-- `calculate_joint_probability`'s filtering loop: `none` signals the
early `return 0.0` taken when a requested column is missing. -/
def filterEvents (cols : List String) :
    List (String × String) → List (List (String × String)) →
      Option (List (List (String × String)))
  | [], rows => some rows
  | (column, value) :: rest, rows =>
    if column ∈ cols then
      filterEvents cols rest (rows.filter (fun r => lookupA r column == some value))
    else none

/-- `calculate_joint_probability`: fraction of rows satisfying every
constraint; `0.0` on empty data or a missing column. -/
def calculate_joint_probability (events : List (String × String)) (df : DataFrame) :
    Option ℚ :=
  if df.rows.isEmpty then some 0
  else
    match filterEvents df.cols events df.rows with
    | none => some 0
    | some filtered_data => divQ filtered_data.length df.rows.length

/-- `calculate_bayes_theorem`: empirical `P(H|E) = P(E|H)·P(H)/P(E)`.
Unlike `calculate_conditional_probability` it indexes the columns without
a presence check, so a missing column is a raised `KeyError` (`none`). -/
def calculate_bayes_theorem (hypothesis evidence : String) (df : DataFrame)
    (hypothesis_col evidence_col : String) : Option ℚ :=
  if hypothesis_col ∉ df.cols then none
  else
    let count_h := countMatch df hypothesis_col hypothesis
    let prob_h : ℚ :=
      if 0 < df.rows.length then (count_h : ℚ) / df.rows.length else 0
    if evidence_col ∉ df.cols then none
    else
      let count_e := countMatch df evidence_col evidence
      let prob_e : ℚ :=
        if 0 < df.rows.length then (count_e : ℚ) / df.rows.length else 0
      if prob_e = 0 then some 0
      else
        let data_h := df.rows.filter (fun r => lookupA r hypothesis_col == some hypothesis)
        let count_e_given_h := data_h.countP (fun r => lookupA r evidence_col == some evidence)
        let prob_e_given_h : ℚ :=
          if 0 < count_h then (count_e_given_h : ℚ) / count_h else 0
        divQ (prob_e_given_h * prob_h) prob_e

/-- `learn_cuisine_probabilities`: for each distinct cuisine in the data,
overwrite its `cuisine_risk_probs` entry with the empirical label
frequencies of that subset. -/
def learn_cuisine_probabilities (e : Engine) (df : DataFrame) : Engine :=
  if "cuisine_type" ∉ df.cols ∨ "risk_level" ∉ df.cols then e
  else
    let cuisine_types := uniqueList (df.rows.filterMap (fun r => lookupA r "cuisine_type"))
    cuisine_types.foldl
      (fun acc cuisine =>
        let cuisine_data := df.rows.filter (fun r => lookupA r "cuisine_type" == some cuisine)
        let total := cuisine_data.length
        if 0 < total then
          { acc with
            cuisine_risk_probs :=
              insertA acc.cuisine_risk_probs cuisine
                ⟨(cuisine_data.countP (fun r => lookupA r "risk_level" == some "Low") : ℚ) / total,
                 (cuisine_data.countP (fun r => lookupA r "risk_level" == some "Medium") : ℚ) / total,
                 (cuisine_data.countP (fun r => lookupA r "risk_level" == some "High") : ℚ) / total⟩ }
        else acc)
      e

/-- The pickled `model_data` dictionary: a parsed blob, with `none` for a
key the dictionary does not contain. -/
structure Blob where
  prior_risk : Option Dist
  cuisine_risk_probs : Option (List (String × Dist))
  staff_thresholds : Option (List (String × ℤ × ℤ))
  infraction_weights : Option (List (ℤ × ℚ))
  temporal_adjustment_enabled : Option Bool
  version : Option String
  deriving DecidableEq, Repr

/-- `save_model`: serialize every parameter table, the temporal flag and
the version tag. -/
def save_model (e : Engine) : Blob :=
  { prior_risk := some e.prior_risk
    cuisine_risk_probs := some e.cuisine_risk_probs
    staff_thresholds := some e.staff_thresholds
    infraction_weights := some e.infraction_weights
    temporal_adjustment_enabled := some e.temporal_adjustment_enabled
    version := some "3.0" }

/-- `load_model`: `none` input models an unreadable/unpicklable file.  The
four parameter fields are assigned sequentially inside the `try` block; a
`KeyError` on a missing key aborts with `False`, keeping the assignments
already performed.  The temporal flag and version are never restored. -/
def load_model (e : Engine) (file : Option Blob) : Engine × Bool :=
  match file with
  | none => (e, false)
  | some model_data =>
    match model_data.prior_risk with
    | none => (e, false)
    | some pr =>
      let e1 := { e with prior_risk := pr }
      match model_data.cuisine_risk_probs with
      | none => (e1, false)
      | some cp =>
        let e2 := { e1 with cuisine_risk_probs := cp }
        match model_data.staff_thresholds with
        | none => (e2, false)
        | some st =>
          let e3 := { e2 with staff_thresholds := st }
          match model_data.infraction_weights with
          | none => (e3, false)
          | some iw => ({ e3 with infraction_weights := iw }, true)

/-- State-passing form of `_get_cuisine_probability` (a read-only method:
it consults `self.cuisine_risk_probs` and performs no assignment). -/
def _get_cuisine_probabilityS (e : Engine) (cuisine_type : String) :
    Engine × Option Dist :=
  (e, _get_cuisine_probability e cuisine_type)

/-- State-passing form of `_calculate_infraction_factor` (reads
`self.infraction_weights`, assigns nothing). -/
def _calculate_infraction_factorS (e : Engine) (infractions : ℤ) : Engine × ℚ :=
  (e, _calculate_infraction_factor e infractions)

/-- State-passing form of `calculate_risk_probability`, threading the
engine through every `self.`-method it invokes; the method body contains
no assignment to `self`, which the frame theorem makes explicit. -/
def calculate_risk_probabilityS (e : Engine) (cuisine_type : String)
    (staff_count infractions_history : ℤ) (kitchen_size : ℚ) (region : String)
    (inspection_date : ℤ) : Engine × Option Dist :=
  let (e1, cuisine_probs?) := _get_cuisine_probabilityS e cuisine_type
  match cuisine_probs? with
  | none => (e1, none)
  | some cuisine_probs =>
    let staff_factor := _calculate_staff_factor staff_count
    let (e2, infraction_factor) := _calculate_infraction_factorS e1 infractions_history
    let kitchen_factor := _calculate_kitchen_factor kitchen_size
    let region_factor := _calculate_region_factor region
    let final_probs : Dist :=
      ⟨cuisine_probs.low * (1 + staff_factor) * (1 + infraction_factor) *
         (1 + kitchen_factor) * (1 + region_factor),
       cuisine_probs.medium * (1 + staff_factor) * (1 + infraction_factor) *
         (1 + kitchen_factor) * (1 + region_factor),
       cuisine_probs.high * (1 + staff_factor) * (1 + infraction_factor) *
         (1 + kitchen_factor) * (1 + region_factor)⟩
    match normalizeD final_probs with
    | none => (e2, none)
    | some normalized =>
      if e2.temporal_adjustment_enabled then
        match e2.regulation_adapter with
        | some regs =>
          (e2, adjust_risk_probabilities regs normalized inspection_date)
        | none => (e2, some normalized)
      else (e2, some normalized)

/-- State-passing form of `predict_risk_level`. -/
def predict_risk_levelS (e : Engine) (cuisine_type : String)
    (staff_count infractions_history : ℤ) (kitchen_size : ℚ) (region : String)
    (inspection_date : ℤ) : Engine × Option (String × ℚ) :=
  let (e1, probs?) := calculate_risk_probabilityS e cuisine_type staff_count
    infractions_history kitchen_size region inspection_date
  (e1, probs?.map argmaxD)

/-- The report returned by `predict_with_confidence`.  The base-2
logarithm of `numpy` is a transcendental function on floats; it enters the
embedding as the uninterpreted parameter `log2f` below. -/
structure ConfidenceReport where
  predicted_risk : String
  probability : ℚ
  all_probabilities : Dist
  confidence_score : ℚ
  confidence_level : String
  entropy : ℚ
  deriving DecidableEq, Repr

/-- State-passing form of `predict_with_confidence`; `log2f` stands for
`np.log2`. -/
def predict_with_confidenceS (log2f : ℚ → ℚ) (e : Engine) (cuisine_type : String)
    (staff_count infractions_history : ℤ) (kitchen_size : ℚ) (region : String)
    (inspection_date : ℤ) : Engine × Option ConfidenceReport :=
  let (e1, probs?) := calculate_risk_probabilityS e cuisine_type staff_count
    infractions_history kitchen_size region inspection_date
  match probs? with
  | none => (e1, none)
  | some probs =>
    let best := argmaxD probs
    let entropy : ℚ :=
      -(probs.low * log2f (probs.low + 1e-10) +
        probs.medium * log2f (probs.medium + 1e-10) +
        probs.high * log2f (probs.high + 1e-10))
    let max_entropy := log2f 3
    let confidence_score := 1 - entropy / max_entropy
    let confidence_level :=
      if confidence_score ≥ 0.8 then "Très élevée"
      else if confidence_score ≥ 0.6 then "Élevée"
      else if confidence_score ≥ 0.4 then "Moyenne"
      else "Faible"
    (e1, some
      { predicted_risk := best.1
        probability := best.2
        all_probabilities := probs
        confidence_score := confidence_score
        confidence_level := confidence_level
        entropy := entropy })

/-- One perturbation sweep of `sensitivity_analysis`: run the given
recomputation for each variation in turn, threading the engine state;
an exception (`none`) in any iteration propagates. -/
def sweepS {α : Type} (f : Engine → α → Engine × Option Dist) :
    Engine → List α → Engine × Option (List (α × Dist))
  | e, [] => (e, some [])
  | e, v :: vs =>
    let (e1, d?) := f e v
    match d? with
    | none => (e1, none)
    | some d =>
      let (e2, rest?) := sweepS f e1 vs
      match rest? with
      | none => (e2, none)
      | some rest => (e2, some ((v, d) :: rest))

/-- The report returned by `sensitivity_analysis`: the base distribution
plus each perturbed distribution keyed by the perturbed value. -/
structure SensitivityReport where
  base_prediction : Dist
  staff_sensitivity : List (ℤ × Dist)
  infractions_sensitivity : List (ℤ × Dist)
  kitchen_sensitivity : List (ℚ × Dist)
  deriving DecidableEq, Repr

/-- State-passing form of `sensitivity_analysis`: recompute the
distribution under the fixed staff, infraction and kitchen-size
perturbations of the source (`inspection_date` stands for the ambient
`datetime.now()` used by the dateless `calculate_risk_probability`
calls). -/
def sensitivity_analysisS (e : Engine) (cuisine_type : String)
    (staff_count infractions_history : ℤ) (kitchen_size : ℚ) (region : String)
    (inspection_date : ℤ) : Engine × Option SensitivityReport :=
  let (e1, base?) := calculate_risk_probabilityS e cuisine_type staff_count
    infractions_history kitchen_size region inspection_date
  match base? with
  | none => (e1, none)
  | some base_probs =>
    let (e2, staff?) := sweepS
      (fun s v => calculate_risk_probabilityS s cuisine_type (max 1 (staff_count + v))
        infractions_history kitchen_size region inspection_date)
      e1 [-5, -2, 0, 2, 5]
    match staff? with
    | none => (e2, none)
    | some staff_sens =>
      let (e3, infr?) := sweepS
        (fun s v => calculate_risk_probabilityS s cuisine_type staff_count
          (max 0 (infractions_history + v)) kitchen_size region inspection_date)
        e2 [-1, 0, 1, 2]
      match infr? with
      | none => (e3, none)
      | some infr_sens =>
        let (e4, kitchen?) := sweepS
          (fun s v => calculate_risk_probabilityS s cuisine_type staff_count
            infractions_history (max 5 (kitchen_size + v)) region inspection_date)
          e3 [-10, -5, 0, 5, 10]
        match kitchen? with
        | none => (e4, none)
        | some kitchen_sens =>
          (e4, some
            { base_prediction := base_probs
              staff_sensitivity := staff_sens
              infractions_sensitivity := infr_sens
              kitchen_sensitivity := kitchen_sens })

/-- The selection rule of the specification for `predict_risk_level`:
the maximum of the three probabilities, attributed to the earliest label
in the fixed order `[Low, Medium, High]` that attains it. -/
def specSelect (d : Dist) : String × ℚ :=
  let m := max (max d.low d.medium) d.high
  if d.low = m then ("Low", d.low)
  else if d.medium = m then ("Medium", d.medium)
  else ("High", d.high)

lemma lookupA_mem {κ α : Type} [BEq κ] {l : List (κ × α)} {k : κ} {v : α}
    (h : lookupA l k = some v) : ∃ k', (k', v) ∈ l := by
  unfold lookupA at h
  cases hf : l.find? (fun p => p.1 == k) with
  | none => rw [hf] at h; simp at h
  | some p =>
    have hmem := List.mem_of_find?_eq_some hf
    rw [hf] at h
    simp only [Option.map_some', Option.some.injEq] at h
    exact ⟨p.1, by rw [← h]; exact hmem⟩

lemma goodD_le_one {d : Dist} (h : goodD d) :
    d.low ≤ 1 ∧ d.medium ≤ 1 ∧ d.high ≤ 1 := by
  obtain ⟨⟨h1, h2, h3⟩, hs⟩ := h
  unfold sumD at hs
  exact ⟨by linarith, by linarith, by linarith⟩

lemma normalizeD_good {d : Dist} (h1 : nonnegD d) (h2 : 0 < sumD d) :
    ∃ d', normalizeD d = some d' ∧ goodD d' := by
  obtain ⟨hl, hm, hh⟩ := h1
  refine ⟨⟨d.low / sumD d, d.medium / sumD d, d.high / sumD d⟩, ?_, ?_, ?_⟩
  · unfold normalizeD
    rw [if_neg (ne_of_gt h2)]
  · exact ⟨div_nonneg hl h2.le, div_nonneg hm h2.le, div_nonneg hh h2.le⟩
  · show d.low / sumD d + d.medium / sumD d + d.high / sumD d = 1
    rw [div_add_div_same, div_add_div_same,
      show d.low + d.medium + d.high = sumD d from rfl]
    exact div_self (ne_of_gt h2)

lemma one_add_staff_ne (s : ℤ) : 1 + _calculate_staff_factor s ≠ 0 := by
  unfold _calculate_staff_factor
  split_ifs <;> norm_num

lemma one_add_kitchen_ne (k : ℚ) : 1 + _calculate_kitchen_factor k ≠ 0 := by
  unfold _calculate_kitchen_factor
  split_ifs <;> norm_num

lemma one_add_region_ne (r : String) : 1 + _calculate_region_factor r ≠ 0 := by
  unfold _calculate_region_factor
  cases hl : lookupA regionFactors r.trim.toLower with
  | none => simp only [Option.getD_none]; norm_num
  | some v =>
    obtain ⟨k', hk⟩ := lookupA_mem hl
    simp only [regionFactors, List.mem_cons, List.not_mem_nil, or_false,
      Prod.mk.injEq] at hk
    rcases hk with ⟨-, rfl⟩ | ⟨-, rfl⟩ | ⟨-, rfl⟩ | ⟨-, rfl⟩ <;>
      simp only [Option.getD_some] <;> norm_num

lemma one_add_infraction_ne {e : Engine}
    (hw : ∀ p ∈ e.infraction_weights, p.2 ≠ -1) (i : ℤ) :
    1 + _calculate_infraction_factor e i ≠ 0 := by
  rw [show _calculate_infraction_factor e i
      = (lookupA e.infraction_weights (if i ≥ 4 then 4 else i)).getD 0.0 from rfl]
  cases hl : lookupA e.infraction_weights (if i ≥ 4 then 4 else i) with
  | none => simp only [Option.getD_none]; norm_num
  | some v =>
    obtain ⟨k', hk⟩ := lookupA_mem hl
    have hv : v ≠ -1 := hw (k', v) hk
    simp only [Option.getD_some]
    intro hcontra
    exact hv (by linarith)

lemma normalizeD_scale (c : Dist) (a b f g : ℚ) (h : a * b * f * g ≠ 0) :
    normalizeD ⟨c.low * a * b * f * g, c.medium * a * b * f * g,
      c.high * a * b * f * g⟩ = normalizeD c := by
  unfold normalizeD sumD
  simp only
  have hsum : c.low * a * b * f * g + c.medium * a * b * f * g + c.high * a * b * f * g
      = (c.low + c.medium + c.high) * (a * b * f * g) := by ring
  rw [hsum]
  by_cases hc : c.low + c.medium + c.high = 0
  · rw [if_pos (by rw [hc]; ring), if_pos hc]
  · rw [if_neg (mul_ne_zero hc h), if_neg hc]
    have e1 : c.low * a * b * f * g = c.low * (a * b * f * g) := by ring
    have e2 : c.medium * a * b * f * g = c.medium * (a * b * f * g) := by ring
    have e3 : c.high * a * b * f * g = c.high * (a * b * f * g) := by ring
    rw [e1, e2, e3, mul_div_mul_right _ _ h, mul_div_mul_right _ _ h,
      mul_div_mul_right _ _ h]

lemma normalizeD_scale_zero (c : Dist) (a b f g : ℚ) (h : a * b * f * g = 0) :
    normalizeD ⟨c.low * a * b * f * g, c.medium * a * b * f * g,
      c.high * a * b * f * g⟩ = none := by
  unfold normalizeD sumD
  simp only
  rw [if_pos (by rw [show c.low * a * b * f * g + c.medium * a * b * f * g +
    c.high * a * b * f * g = (c.low + c.medium + c.high) * (a * b * f * g) from by ring,
    h, mul_zero])]

lemma calculate_factors_cancel {e : Engine} {cuisine : String} {t : ℤ}
    {s1 i1 : ℤ} {k1 : ℚ} {r1 : String} {s2 i2 : ℤ} {k2 : ℚ} {r2 : String}
    {d1 d2 : Dist}
    (h1 : calculate_risk_probability e cuisine s1 i1 k1 r1 t = some d1)
    (h2 : calculate_risk_probability e cuisine s2 i2 k2 r2 t = some d2) :
    d1 = d2 := by
  unfold calculate_risk_probability at h1 h2
  cases hc : _get_cuisine_probability e cuisine with
  | none => rw [hc] at h1; simp at h1
  | some c =>
    simp only [hc] at h1 h2
    by_cases hp1 : (1 + _calculate_staff_factor s1) * (1 + _calculate_infraction_factor e i1) *
        (1 + _calculate_kitchen_factor k1) * (1 + _calculate_region_factor r1) = 0
    · rw [normalizeD_scale_zero c _ _ _ _ hp1] at h1
      simp at h1
    · rw [normalizeD_scale c _ _ _ _ hp1] at h1
      by_cases hp2 : (1 + _calculate_staff_factor s2) * (1 + _calculate_infraction_factor e i2) *
          (1 + _calculate_kitchen_factor k2) * (1 + _calculate_region_factor r2) = 0
      · rw [normalizeD_scale_zero c _ _ _ _ hp2] at h2
        simp at h2
      · rw [normalizeD_scale c _ _ _ _ hp2] at h2
        cases hn : normalizeD c with
        | none => rw [hn] at h1; simp at h1
        | some n =>
          rw [hn] at h1 h2
          rw [h1] at h2
          exact Option.some.inj h2

lemma adjust_risk_probabilities_good {regs : List Regulation} {d : Dist} {t : ℤ}
    (hr : ∀ r ∈ regs, 0 ≤ r.impact_weight ∧ r.impact_weight ≤ 3)
    (hd : goodD d) :
    ∃ d', adjust_risk_probabilities regs d t = some d' ∧ goodD d' := by
  obtain ⟨⟨hdl, hdm, hdh⟩, hds⟩ := hd
  obtain ⟨hdl1, hdm1, hdh1⟩ := goodD_le_one ⟨⟨hdl, hdm, hdh⟩, hds⟩
  have hds' : d.low + d.medium + d.high = 1 := hds
  simp only [adjust_risk_probabilities]
  by_cases he : (get_applicable_regulations regs t).isEmpty
  · rw [if_pos he]
    exact ⟨d, rfl, ⟨hdl, hdm, hdh⟩, hds⟩
  · rw [if_neg he]
    have hne : get_applicable_regulations regs t ≠ [] := by
      intro hnil; exact he (by rw [hnil]; rfl)
    have hlen : 0 < ((get_applicable_regulations regs t).length : ℚ) := by
      have := List.length_pos.mpr hne
      exact_mod_cast this
    have hsub : ∀ r ∈ get_applicable_regulations regs t,
        0 ≤ r.impact_weight ∧ r.impact_weight ≤ 3 := by
      intro r hrm
      exact hr r (List.mem_of_mem_filter hrm)
    set m : ℚ := ((get_applicable_regulations regs t).map
      (fun reg => reg.impact_weight)).sum / (get_applicable_regulations regs t).length
      with hm
    have hm0 : 0 ≤ m := by
      rw [hm]
      apply div_nonneg _ hlen.le
      apply List.sum_nonneg
      intro x hx
      obtain ⟨r, hrm, rfl⟩ := List.mem_map.mp hx
      exact (hsub r hrm).1
    have hm3 : m ≤ 3 := by
      rw [hm, div_le_iff₀ hlen]
      have hb : ((get_applicable_regulations regs t).map
          (fun reg => reg.impact_weight)).sum ≤
          ((get_applicable_regulations regs t).map
            (fun reg => reg.impact_weight)).length • (3 : ℚ) := by
        apply List.sum_le_card_nsmul
        intro x hx
        obtain ⟨r, hrm, rfl⟩ := List.mem_map.mp hx
        exact (hsub r hrm).2
      rw [List.length_map, nsmul_eq_mul] at hb
      linarith
    by_cases h1 : m > 1
    · rw [if_pos h1]
      have hs0 : 0 < (m - 1) * 0.5 := by nlinarith
      have hs1 : (m - 1) * 0.5 ≤ 1 := by nlinarith
      apply normalizeD_good
      · exact ⟨mul_nonneg hdl (by nlinarith), mul_nonneg hdm (by nlinarith),
          by nlinarith⟩
      · show (0 : ℚ) < d.low * (1 - (m - 1) * 0.5 * 0.5) +
          d.medium * (1 - (m - 1) * 0.5) + (d.high + (m - 1) * 0.5 * d.medium)
        have hb : (m - 1) * 0.5 * d.low ≤ 1 := by nlinarith
        nlinarith [hds']
    · rw [if_neg h1]
      by_cases h2 : m < 1
      · rw [if_pos h2]
        have hs0 : 0 < (1 - m) * 0.5 := by nlinarith
        have hs1 : (1 - m) * 0.5 ≤ 1 := by nlinarith
        apply normalizeD_good
        · exact ⟨by nlinarith, mul_nonneg hdm (by nlinarith),
            mul_nonneg hdh (by nlinarith)⟩
        · show (0 : ℚ) < d.low + (1 - m) * 0.5 * d.medium +
            d.medium * (1 - (1 - m) * 0.5) + d.high * (1 - (1 - m) * 0.5 * 0.5)
          have hb : (1 - m) * 0.5 * d.high ≤ 1 := by nlinarith
          nlinarith [hds']
      · rw [if_neg h2]
        exact normalizeD_good ⟨hdl, hdm, hdh⟩ (by rw [hds]; norm_num)

lemma goodD_fields {x : Dist} (hx : goodD x) :
    0 ≤ x.low ∧ x.low ≤ 1 ∧ 0 ≤ x.medium ∧ x.medium ≤ 1 ∧
      0 ≤ x.high ∧ x.high ≤ 1 ∧ sumD x = 1 :=
  ⟨hx.1.1, (goodD_le_one hx).1, hx.1.2.1, (goodD_le_one hx).2.1,
    hx.1.2.2, (goodD_le_one hx).2.2, hx.2⟩

/-- C1 (amended): for every engine state in which every cuisine-table entry
has nonnegative values with positive sum, the `'Other'` entry is present,
no infraction weight equals `-1`, and every attached regulation has impact
weight in `[0, 3]` (the constructor defaults satisfy all of this),
`calculate_risk_probability` returns a distribution over exactly the three
labels whose values lie in `[0, 1]` and sum to exactly 1 (hence within
`1e-6`), with or without the temporal adjustment applied afterwards. -/
theorem calculate_risk_probability_valid_distribution
    (e : Engine) (cuisine region : String) (staff infractions : ℤ)
    (kitchen : ℚ) (t : ℤ)
    (htable : ∀ p ∈ e.cuisine_risk_probs, nonnegD p.2 ∧ 0 < sumD p.2)
    (hother : (lookupA e.cuisine_risk_probs "Other").isSome)
    (hw : ∀ p ∈ e.infraction_weights, p.2 ≠ -1)
    (hregs : ∀ r ∈ e.regulation_adapter.getD [],
      0 ≤ r.impact_weight ∧ r.impact_weight ≤ 3) :
    ∃ d, calculate_risk_probability e cuisine staff infractions kitchen region t
        = some d ∧
      0 ≤ d.low ∧ d.low ≤ 1 ∧ 0 ≤ d.medium ∧ d.medium ≤ 1 ∧
      0 ≤ d.high ∧ d.high ≤ 1 ∧ sumD d = 1 := by
  have hc : ∃ c, _get_cuisine_probability e cuisine = some c ∧
      nonnegD c ∧ 0 < sumD c := by
    simp only [_get_cuisine_probability]
    cases hl : lookupA e.cuisine_risk_probs (pyTitle cuisine.trim) with
    | some c =>
      obtain ⟨k', hk⟩ := lookupA_mem hl
      exact ⟨c, rfl, htable (k', c) hk⟩
    | none =>
      obtain ⟨c, hl2⟩ := Option.isSome_iff_exists.mp hother
      obtain ⟨k', hk⟩ := lookupA_mem hl2
      exact ⟨c, hl2, htable (k', c) hk⟩
  obtain ⟨c, hcp, hcn, hcs⟩ := hc
  have hprod : (1 + _calculate_staff_factor staff) *
      (1 + _calculate_infraction_factor e infractions) *
      (1 + _calculate_kitchen_factor kitchen) *
      (1 + _calculate_region_factor region) ≠ 0 :=
    mul_ne_zero (mul_ne_zero (mul_ne_zero (one_add_staff_ne _)
      (one_add_infraction_ne hw _)) (one_add_kitchen_ne _)) (one_add_region_ne _)
  obtain ⟨n, hn, hgn⟩ := normalizeD_good hcn hcs
  simp only [calculate_risk_probability, hcp]
  rw [normalizeD_scale c _ _ _ _ hprod]
  simp only [hn]
  by_cases ht : e.temporal_adjustment_enabled
  · rw [if_pos ht]
    cases ha : e.regulation_adapter with
    | none => exact ⟨n, rfl, goodD_fields hgn⟩
    | some regs =>
      have hregs' : ∀ r ∈ regs, 0 ≤ r.impact_weight ∧ r.impact_weight ≤ 3 := by
        intro r hrm
        exact hregs r (by rw [ha]; exact hrm)
      obtain ⟨d', hd', hg'⟩ := adjust_risk_probabilities_good hregs' hgn
      exact ⟨d', hd', goodD_fields hg'⟩
  · rw [if_neg ht]
    exact ⟨n, rfl, goodD_fields hgn⟩

/-- C1 (counterexample): three reachable engine states violating the claim.
(1) `learn_cuisine_probabilities` on a row whose label is outside
{Low, Medium, High} stores an all-zero cuisine entry, and
`calculate_risk_probability` then raises `ZeroDivisionError` (returns no
mapping at all).  (2) A regulation with the positive impact weight 6
(addable through `add_regulation`) drives the adjusted distribution
outside `[0, 1]`: the result is `{Low: -0.6, Medium: -1.8, High: 3.4}`.
(3) `load_model` of a blob whose infraction weight table maps 2 to -1
makes the combined factor zero and the call raises. -/
theorem calculate_risk_probability_violations :
    (calculate_risk_probability
        (learn_cuisine_probabilities (mkEngine false none)
          ⟨["cuisine_type", "risk_level"],
            [[("cuisine_type", "X"), ("risk_level", "Bogus")]]⟩)
        "X" 10 0 30 "quebec" 0 = none) ∧
    (calculate_risk_probability (mkEngine true (some [⟨0, 6⟩]))
        "Other" 10 0 30 "quebec" 1 = some ⟨-0.6, -1.8, 3.4⟩) ∧
    ¬ nonnegD ⟨-0.6, -1.8, 3.4⟩ ∧
    (calculate_risk_probability
        ((load_model (mkEngine false none)
            (some ⟨some defaultPriorRisk, some defaultCuisineRiskProbs,
              some defaultStaffThresholds, some [(2, -1)], none, none⟩)).1)
        "Other" 10 2 30 "quebec" 0 = none) := by
  refine ⟨?_, ?_, ?_, ?_⟩ <;> with_unfolding_all decide

/-- C1 (witness): the amended theorem applied to the default engine with a
mild regulation attached. -/
theorem calculate_risk_probability_valid_distribution_witness :
    ∃ d, calculate_risk_probability (mkEngine true (some [⟨0, 1.5⟩]))
        "Sushi" 10 2 35 "montreal" 1 = some d ∧
      0 ≤ d.low ∧ d.low ≤ 1 ∧ 0 ≤ d.medium ∧ d.medium ≤ 1 ∧
      0 ≤ d.high ∧ d.high ≤ 1 ∧ sumD d = 1 :=
  calculate_risk_probability_valid_distribution
    (mkEngine true (some [⟨0, 1.5⟩])) "Sushi" "montreal" 10 2 35 1
    (by with_unfolding_all decide) (by with_unfolding_all decide)
    (by with_unfolding_all decide) (by with_unfolding_all decide)

/-- C2: for a fixed engine state, two `calculate_risk_probability` calls
that agree on cuisine and inspection date and both return a distribution
return the same distribution, whatever their staff counts, infraction
histories, kitchen sizes and regions: each scalar factor multiplies all
three labels by the same `(1+factor)` and cancels in the
renormalization. -/
theorem calculate_risk_probability_factor_invariance
    (e : Engine) (cuisine : String) (t : ℤ)
    (s1 i1 : ℤ) (k1 : ℚ) (r1 : String) (s2 i2 : ℤ) (k2 : ℚ) (r2 : String)
    (d1 d2 : Dist)
    (h1 : calculate_risk_probability e cuisine s1 i1 k1 r1 t = some d1)
    (h2 : calculate_risk_probability e cuisine s2 i2 k2 r2 t = some d2) :
    d1 = d2 :=
  calculate_factors_cancel h1 h2

/-- C2 (witness): the default engine on `Sushi` yields the same `Sushi`
prior distribution for two very different staff/infraction/kitchen/region
combinations. -/
theorem calculate_risk_probability_factor_invariance_witness :
    (⟨0.30, 0.40, 0.30⟩ : Dist) = (⟨0.30, 0.40, 0.30⟩ : Dist) :=
  calculate_risk_probability_factor_invariance (mkEngine false none) "Sushi" 0
    10 0 30 "quebec" 3 2 10 "montreal" ⟨0.30, 0.40, 0.30⟩ ⟨0.30, 0.40, 0.30⟩
    (by with_unfolding_all decide) (by with_unfolding_all decide)

/-- C7: with cuisine, staff, kitchen, region, date and engine state fixed,
increasing the infraction history never decreases the returned High
probability (in fact the High probability is unchanged, because the
infraction factor cancels in the renormalization). -/
theorem calculate_risk_probability_high_monotone
    (e : Engine) (cuisine region : String) (s : ℤ) (k : ℚ) (t : ℤ)
    (i1 i2 : ℤ) (d1 d2 : Dist)
    (hle : i1 ≤ i2)
    (h1 : calculate_risk_probability e cuisine s i1 k region t = some d1)
    (h2 : calculate_risk_probability e cuisine s i2 k region t = some d2) :
    d1.high ≤ d2.high :=
  le_of_eq (congrArg Dist.high (calculate_factors_cancel h1 h2))

/-- C7 (witness): the default engine, infractions 0 versus 3. -/
theorem calculate_risk_probability_high_monotone_witness :
    (⟨0.30, 0.40, 0.30⟩ : Dist).high ≤ (⟨0.30, 0.40, 0.30⟩ : Dist).high :=
  calculate_risk_probability_high_monotone (mkEngine false none) "Sushi"
    "montreal" 10 35 0 0 3 ⟨0.30, 0.40, 0.30⟩ ⟨0.30, 0.40, 0.30⟩
    (by norm_num) (by with_unfolding_all decide) (by with_unfolding_all decide)

/-- C5 (counterexample): at a kitchen size of exactly 50 m² the factor is
`+0.10`, not the `0.0` the claim asserts for the inclusive range 20–50. -/
theorem kitchen_factor_at_fifty :
    _calculate_kitchen_factor 50 = 0.10 ∧ ¬ _calculate_kitchen_factor 50 = 0.0 := by
  with_unfolding_all decide

/-- C5 (amended): the kitchen-size factor is `-0.05` below 20 m², `0.0` on
the half-open range `20 ≤ size < 50`, and `+0.10` from 50 m² upward (the
upper boundary 50 belongs to the `+0.10` bucket). -/
theorem kitchen_factor_spec (kitchen_size : ℚ) :
    (kitchen_size < 20 → _calculate_kitchen_factor kitchen_size = -0.05) ∧
    (20 ≤ kitchen_size → kitchen_size < 50 →
      _calculate_kitchen_factor kitchen_size = 0.0) ∧
    (50 ≤ kitchen_size → _calculate_kitchen_factor kitchen_size = 0.10) := by
  unfold _calculate_kitchen_factor
  refine ⟨fun h => if_pos h, fun h1 h2 => ?_, fun h => ?_⟩
  · rw [if_neg (not_lt.mpr h1), if_pos h2]
  · rw [if_neg (not_lt.mpr (by linarith)), if_neg (not_lt.mpr h)]

/-- C5 (witness): the amended theorem at 10, 35 and 50 m². -/
theorem kitchen_factor_spec_witness :
    _calculate_kitchen_factor 10 = -0.05 ∧ _calculate_kitchen_factor 35 = 0.0 ∧
      _calculate_kitchen_factor 50 = 0.10 :=
  ⟨(kitchen_factor_spec 10).1 (by norm_num),
   (kitchen_factor_spec 35).2.1 (by norm_num) (by norm_num),
   (kitchen_factor_spec 50).2.2 (by norm_num)⟩

/-- C6: whenever no loaded regulation record has `effective_date ≤` the
inspection date — in particular for an adapter holding zero records —
`adjust_risk_probabilities` returns its input distribution unchanged. -/
theorem adjust_risk_probabilities_identity
    (regs : List Regulation) (probabilities : Dist) (inspection_date : ℤ)
    (h : ∀ r ∈ regs, ¬ r.effective_date ≤ inspection_date) :
    adjust_risk_probabilities regs probabilities inspection_date
      = some probabilities := by
  have hnil : get_applicable_regulations regs inspection_date = [] := by
    unfold get_applicable_regulations
    rw [List.filter_eq_nil_iff]
    intro a ha
    simpa using h a ha
  simp [adjust_risk_probabilities, hnil]

/-- C6 (witness): the zero-record adapter is the identity on a concrete
distribution. -/
theorem adjust_risk_probabilities_identity_witness :
    adjust_risk_probabilities [] ⟨0.30, 0.50, 0.20⟩ 0 = some ⟨0.30, 0.50, 0.20⟩ :=
  adjust_risk_probabilities_identity [] ⟨0.30, 0.50, 0.20⟩ 0 (by simp)

lemma argmaxD_eq_specSelect (d : Dist) : argmaxD d = specSelect d := by
  simp only [argmaxD, specSelect]
  have hll := le_max_left d.low d.medium
  have hlr := le_max_right d.low d.medium
  have hol := le_max_left (max d.low d.medium) d.high
  have hor := le_max_right (max d.low d.medium) d.high
  by_cases h1 : d.medium > d.low
  · rw [if_pos h1]
    by_cases h2 : d.high > d.medium
    · rw [if_pos h2]
      have hm : max (max d.low d.medium) d.high = d.high := by
        rw [max_eq_right h1.le, max_eq_right h2.le]
      rw [if_neg (by rw [hm]; intro hc; linarith), if_neg (by rw [hm]; intro hc; linarith)]
    · rw [if_neg h2]
      have hm : max (max d.low d.medium) d.high = d.medium := by
        rw [max_eq_right h1.le, max_eq_left (le_of_not_lt h2)]
      rw [if_neg (by rw [hm]; intro hc; linarith), if_pos (by rw [hm])]
  · rw [if_neg h1]
    have h1' : d.medium ≤ d.low := le_of_not_lt h1
    by_cases h2 : d.high > d.low
    · rw [if_pos h2]
      have hm : max (max d.low d.medium) d.high = d.high := by
        rw [max_eq_left h1', max_eq_right h2.le]
      rw [if_neg (by rw [hm]; intro hc; linarith), if_neg (by rw [hm]; intro hc; linarith)]
    · rw [if_neg h2]
      have hm : max (max d.low d.medium) d.high = d.low := by
        rw [max_eq_left h1', max_eq_left (le_of_not_lt h2)]
      rw [if_pos (by rw [hm])]

/-- C9: `predict_risk_level` returns exactly the label selected by the
specification rule — the maximum probability of the computed distribution,
attributed over the fixed order `[Low, Medium, High]` with strict-greater
comparison so that ties go to the earliest label — together with that
probability. -/
theorem predict_risk_level_argmax
    (e : Engine) (cuisine region : String) (staff infractions : ℤ)
    (kitchen : ℚ) (t : ℤ) (d : Dist)
    (h : calculate_risk_probability e cuisine staff infractions kitchen region t
      = some d) :
    predict_risk_level e cuisine staff infractions kitchen region t
        = some (specSelect d) ∧
      (specSelect d).2 = max (max d.low d.medium) d.high := by
  constructor
  · unfold predict_risk_level
    rw [h, Option.map_some', argmaxD_eq_specSelect]
  · simp only [specSelect]
    split_ifs with h1 h2
    · exact h1
    · exact h2
    · rcases max_choice (max d.low d.medium) d.high with hc | hc
      · rcases max_choice d.low d.medium with hc2 | hc2
        · exfalso; apply h1; rw [hc, hc2]
        · exfalso; apply h2; rw [hc, hc2]
      · exact hc.symm

/-- C9 (witness): the default engine on the `Sushi` scenario, where
`Medium` attains the maximum 0.40. -/
theorem predict_risk_level_argmax_witness :
    predict_risk_level (mkEngine false none) "Sushi" 10 2 35 "montreal" 0
        = some (specSelect ⟨0.30, 0.40, 0.30⟩) ∧
      (specSelect (⟨0.30, 0.40, 0.30⟩ : Dist)).2 =
        max (max (⟨0.30, 0.40, 0.30⟩ : Dist).low (⟨0.30, 0.40, 0.30⟩ : Dist).medium)
          (⟨0.30, 0.40, 0.30⟩ : Dist).high :=
  predict_risk_level_argmax (mkEngine false none) "Sushi" "montreal" 10 2 35 0
    ⟨0.30, 0.40, 0.30⟩ (by with_unfolding_all decide)

/-- C3 (counterexample): loading a blob that parses but lacks the
`cuisine_risk_probs` key fails, yet leaves the engine with the blob's
`prior_risk` already installed — the failed load partially overwrites
state instead of leaving it untouched; and the missing required field is
rejected rather than replaced by a default. -/
theorem load_model_partial_overwrite :
    (load_model (mkEngine false none)
        (some ⟨some ⟨0.5, 0.3, 0.2⟩, none, none, none, none, none⟩)).2 = false ∧
    (load_model (mkEngine false none)
        (some ⟨some ⟨0.5, 0.3, 0.2⟩, none, none, none, none, none⟩)).1
      ≠ mkEngine false none ∧
    (load_model (mkEngine false none)
        (some ⟨some ⟨0.5, 0.3, 0.2⟩, none, none, none, none, none⟩)).1.prior_risk
      = ⟨0.5, 0.3, 0.2⟩ ∧
    (mkEngine false none).prior_risk = ⟨0.6, 0.3, 0.1⟩ := by
  with_unfolding_all decide

/-- C3 (amended): `load_model` succeeds exactly when the blob is readable
and contains all four parameter tables, in which case they are replaced
wholesale and the temporal flag is untouched; an unreadable blob or one
missing `prior_risk` leaves the state untouched; but a blob missing a
later required field fails only after overwriting the fields assigned
before it, and a missing required field is never substituted by a default
(only `version` and the temporal flag are optional, being unread). -/
theorem load_model_spec (e : Engine) (b : Blob) :
    (load_model e none = (e, false)) ∧
    (b.prior_risk = none → load_model e (some b) = (e, false)) ∧
    ((load_model e (some b)).2 = true ↔
      b.prior_risk.isSome ∧ b.cuisine_risk_probs.isSome ∧
        b.staff_thresholds.isSome ∧ b.infraction_weights.isSome) ∧
    (∀ pr cp st iw, b.prior_risk = some pr → b.cuisine_risk_probs = some cp →
      b.staff_thresholds = some st → b.infraction_weights = some iw →
      load_model e (some b) =
        ({ e with
            prior_risk := pr
            cuisine_risk_probs := cp
            staff_thresholds := st
            infraction_weights := iw }, true)) ∧
    ((load_model e (some b)).1.temporal_adjustment_enabled
      = e.temporal_adjustment_enabled) := by
  obtain ⟨pr, cp, st, iw, tf, v⟩ := b
  cases pr <;> cases cp <;> cases st <;> cases iw <;> simp [load_model] <;>
    exact fun pr cp st iw h1 h2 h3 h4 => ⟨h1, h2, h3, h4⟩

/-- C3 (witness): a full blob loads successfully into the default engine,
replacing all four tables. -/
theorem load_model_spec_witness :
    load_model (mkEngine false none)
        (some ⟨some ⟨0.5, 0.3, 0.2⟩, some [("Other", ⟨0.5, 0.3, 0.2⟩)],
          some [("small", (0, 5))], some [(0, 0.1)], none, none⟩)
      = ({ mkEngine false none with
            prior_risk := ⟨0.5, 0.3, 0.2⟩
            cuisine_risk_probs := [("Other", ⟨0.5, 0.3, 0.2⟩)]
            staff_thresholds := [("small", (0, 5))]
            infraction_weights := [(0, 0.1)] }, true) :=
  (load_model_spec (mkEngine false none)
      ⟨some ⟨0.5, 0.3, 0.2⟩, some [("Other", ⟨0.5, 0.3, 0.2⟩)],
        some [("small", (0, 5))], some [(0, 0.1)], none, none⟩).2.2.2.1
    _ _ _ _ rfl rfl rfl rfl

/-- C4 (counterexample): `save_model` writes the temporal flag but
`load_model` never restores it, so loading the saved state of a
temporal-disabled engine into a fresh engine whose constructor default
enabled temporal adjustment yields different predictions on the same
input. -/
theorem load_save_round_trip_flag_lost :
    (load_model (mkEngine true (some [⟨0, 1.5⟩]))
        (some (save_model (mkEngine false none)))).2 = true ∧
    (save_model (mkEngine false none)).temporal_adjustment_enabled = some false ∧
    (load_model (mkEngine true (some [⟨0, 1.5⟩]))
        (some (save_model (mkEngine false none)))).1.temporal_adjustment_enabled
      = true ∧
    calculate_risk_probability
        ((load_model (mkEngine true (some [⟨0, 1.5⟩]))
            (some (save_model (mkEngine false none)))).1)
        "Other" 10 0 30 "quebec" 1
      ≠ calculate_risk_probability (mkEngine false none)
          "Other" 10 0 30 "quebec" 1 := by
  with_unfolding_all decide

/-- C4 (amended): loading `save_model S` into a fresh engine `F`
reproduces the original engine's `calculate_risk_probability` and
`predict_risk_level` outputs on every input, provided `F`'s
temporal-adjustment flag and adapter state already coincide with `S`'s
(the four parameter tables are restored exactly; the saved flag itself is
ignored by `load_model`). -/
theorem load_save_round_trip (S F : Engine)
    (hflag : F.temporal_adjustment_enabled = S.temporal_adjustment_enabled)
    (hadapter : F.regulation_adapter = S.regulation_adapter) :
    ∀ (cuisine region : String) (staff infractions : ℤ) (kitchen : ℚ) (t : ℤ),
      calculate_risk_probability ((load_model F (some (save_model S))).1)
          cuisine staff infractions kitchen region t
        = calculate_risk_probability S cuisine staff infractions kitchen region t ∧
      predict_risk_level ((load_model F (some (save_model S))).1)
          cuisine staff infractions kitchen region t
        = predict_risk_level S cuisine staff infractions kitchen region t := by
  have hloaded : (load_model F (some (save_model S))).1 = S := by
    obtain ⟨a, b, c, d, ee, ff⟩ := S
    obtain ⟨a', b', c', d', e', f'⟩ := F
    simp only [load_model, save_model, Engine.mk.injEq]
    exact ⟨trivial, trivial, trivial, trivial, hflag, hadapter⟩
  intro cuisine region staff infractions kitchen t
  rw [hloaded]
  exact ⟨rfl, rfl⟩

/-- C4 (witness): round trip through an engine equal to the fresh default
(matching flag and adapter). -/
theorem load_save_round_trip_witness :
    calculate_risk_probability
        ((load_model (mkEngine true (some [⟨0, 2⟩]))
            (some (save_model (mkEngine true (some [⟨0, 2⟩]))))).1)
        "Sushi" 10 2 35 "montreal" 1
      = calculate_risk_probability (mkEngine true (some [⟨0, 2⟩]))
          "Sushi" 10 2 35 "montreal" 1 ∧
    predict_risk_level
        ((load_model (mkEngine true (some [⟨0, 2⟩]))
            (some (save_model (mkEngine true (some [⟨0, 2⟩]))))).1)
        "Sushi" 10 2 35 "montreal" 1
      = predict_risk_level (mkEngine true (some [⟨0, 2⟩]))
          "Sushi" 10 2 35 "montreal" 1 :=
  load_save_round_trip (mkEngine true (some [⟨0, 2⟩]))
    (mkEngine true (some [⟨0, 2⟩])) rfl rfl "Sushi" "montreal" 10 2 35 1

/-- C8 (counterexample): on the truly empty dataset (no rows, no columns)
`calculate_bayes_theorem` indexes the missing evidence/hypothesis columns
without a presence check and raises `KeyError` instead of returning 0.0 —
unlike `calculate_conditional_probability`, which guards its columns. -/
theorem calculate_bayes_theorem_raises_on_empty_frame :
    calculate_bayes_theorem "High" "Sushi" ⟨[], []⟩ "risk_level" "cuisine_type"
        = none ∧
    ¬ calculate_bayes_theorem "High" "Sushi" ⟨[], []⟩ "risk_level" "cuisine_type"
        = some 0 := by
  with_unfolding_all decide

/-- C8 (amended): `calculate_conditional_probability` returns `0.0`
(without raising) whenever event B never occurs in its column — in
particular on every empty dataset; `calculate_joint_probability` returns
`0.0` on every empty dataset; `calculate_bayes_theorem` returns `0.0`
whenever both of its columns are present in the dataset's schema and the
evidence value never occurs (including zero-row datasets carrying the
columns) — but with a missing column it raises instead. -/
theorem degenerate_probability_contract (df : DataFrame)
    (event_a event_b column_a column_b hypothesis evidence hc ec : String)
    (events : List (String × String)) :
    (countMatch df column_b event_b = 0 →
      calculate_conditional_probability event_a event_b df column_a column_b
        = some 0) ∧
    (df.rows = [] → calculate_joint_probability events df = some 0) ∧
    (hc ∈ df.cols → ec ∈ df.cols → countMatch df ec evidence = 0 →
      calculate_bayes_theorem hypothesis evidence df hc ec = some 0) := by
  refine ⟨?_, ?_, ?_⟩
  · intro hcount
    simp only [calculate_conditional_probability]
    by_cases he : df.rows.isEmpty
    · rw [if_pos he]
    · rw [if_neg he]
      by_cases hcols : column_a ∉ df.cols ∨ column_b ∉ df.cols
      · rw [if_pos hcols]
      · rw [if_neg hcols, if_pos hcount]
  · intro hempty
    simp only [calculate_joint_probability]
    rw [if_pos (by simp [hempty])]
  · intro h1 h2 hcount
    simp only [calculate_bayes_theorem]
    rw [if_neg (by simpa using h1), if_neg (by simpa using h2), hcount]
    have hpe : (if 0 < df.rows.length then ((0 : ℕ) : ℚ) / df.rows.length else 0)
        = 0 := by
      split_ifs <;> simp
    rw [hpe, if_pos rfl]

/-- C8 (witness): the amended contract on a zero-row dataset that carries
the two schema columns. -/
theorem degenerate_probability_contract_witness :
    (calculate_conditional_probability "High" "Sushi"
        ⟨["cuisine_type", "risk_level"], []⟩ "risk_level" "cuisine_type"
      = some 0) ∧
    (calculate_joint_probability [("cuisine_type", "Sushi")]
        ⟨["cuisine_type", "risk_level"], []⟩
      = some 0) ∧
    ( calculate_bayes_theorem "High" "Sushi"
        ⟨["cuisine_type", "risk_level"], []⟩ "risk_level" "cuisine_type"
      = some 0) :=
  ⟨(degenerate_probability_contract ⟨["cuisine_type", "risk_level"], []⟩
      "High" "Sushi" "risk_level" "cuisine_type" "High" "Sushi" "risk_level"
      "cuisine_type" [("cuisine_type", "Sushi")]).1
      (by with_unfolding_all decide),
   (degenerate_probability_contract ⟨["cuisine_type", "risk_level"], []⟩
      "High" "Sushi" "risk_level" "cuisine_type" "High" "Sushi" "risk_level"
      "cuisine_type" [("cuisine_type", "Sushi")]).2.1 rfl,
   (degenerate_probability_contract ⟨["cuisine_type", "risk_level"], []⟩
      "High" "Sushi" "risk_level" "cuisine_type" "High" "Sushi" "risk_level"
      "cuisine_type" [("cuisine_type", "Sushi")]).2.2
      (by with_unfolding_all decide) (by with_unfolding_all decide)
      (by with_unfolding_all decide)⟩

lemma calculate_risk_probabilityS_fst (e : Engine) (cuisine region : String)
    (staff infractions : ℤ) (kitchen : ℚ) (t : ℤ) :
    (calculate_risk_probabilityS e cuisine staff infractions kitchen region t).1
      = e := by
  simp only [calculate_risk_probabilityS, _get_cuisine_probabilityS,
    _calculate_infraction_factorS]
  cases _get_cuisine_probability e cuisine with
  | none => rfl
  | some c =>
    simp only
    cases normalizeD _ with
    | none => rfl
    | some n =>
      simp only
      by_cases ht : e.temporal_adjustment_enabled
      · rw [if_pos ht]
        cases e.regulation_adapter <;> rfl
      · rw [if_neg ht]

lemma predict_risk_levelS_fst (e : Engine) (cuisine region : String)
    (staff infractions : ℤ) (kitchen : ℚ) (t : ℤ) :
    (predict_risk_levelS e cuisine staff infractions kitchen region t).1 = e := by
  simp only [predict_risk_levelS]
  rw [show (calculate_risk_probabilityS e cuisine staff infractions kitchen region t)
      = (e, (calculate_risk_probabilityS e cuisine staff infractions kitchen
          region t).2) from
    Prod.ext (calculate_risk_probabilityS_fst e cuisine region staff infractions
      kitchen t) rfl]

lemma predict_with_confidenceS_fst (log2f : ℚ → ℚ) (e : Engine)
    (cuisine region : String) (staff infractions : ℤ) (kitchen : ℚ) (t : ℤ) :
    (predict_with_confidenceS log2f e cuisine staff infractions kitchen region t).1
      = e := by
  simp only [predict_with_confidenceS]
  rw [show (calculate_risk_probabilityS e cuisine staff infractions kitchen region t)
      = (e, (calculate_risk_probabilityS e cuisine staff infractions kitchen
          region t).2) from
    Prod.ext (calculate_risk_probabilityS_fst e cuisine region staff infractions
      kitchen t) rfl]
  cases (calculate_risk_probabilityS e cuisine staff infractions kitchen region t).2
    <;> rfl

lemma sweepS_fst {α : Type} (f : Engine → α → Engine × Option Dist)
    (hf : ∀ e v, (f e v).1 = e) :
    ∀ (e : Engine) (l : List α), (sweepS f e l).1 = e := by
  intro e l
  induction l generalizing e with
  | nil => rfl
  | cons v vs ih =>
    simp only [sweepS]
    rw [show f e v = (e, (f e v).2) from Prod.ext (hf e v) rfl]
    cases (f e v).2 with
    | none => rfl
    | some d =>
      simp only
      rw [show sweepS f e vs = (e, (sweepS f e vs).2) from
        Prod.ext (ih e) rfl]
      cases (sweepS f e vs).2 <;> rfl

lemma sensitivity_analysisS_fst (e : Engine) (cuisine region : String)
    (staff infractions : ℤ) (kitchen : ℚ) (t : ℤ) :
    (sensitivity_analysisS e cuisine staff infractions kitchen region t).1 = e := by
  simp only [sensitivity_analysisS]
  rw [show (calculate_risk_probabilityS e cuisine staff infractions kitchen region t)
      = (e, (calculate_risk_probabilityS e cuisine staff infractions kitchen
          region t).2) from
    Prod.ext (calculate_risk_probabilityS_fst e cuisine region staff infractions
      kitchen t) rfl]
  cases (calculate_risk_probabilityS e cuisine staff infractions kitchen region t).2 with
  | none => rfl
  | some base =>
    simp only
    rw [show sweepS (fun s v => calculate_risk_probabilityS s cuisine
        (max 1 (staff + v)) infractions kitchen region t) e [-5, -2, 0, 2, 5]
        = (e, (sweepS (fun s v => calculate_risk_probabilityS s cuisine
            (max 1 (staff + v)) infractions kitchen region t) e [-5, -2, 0, 2, 5]).2)
      from Prod.ext (sweepS_fst _ (fun s v => calculate_risk_probabilityS_fst s
        cuisine region (max 1 (staff + v)) infractions kitchen t) e _) rfl]
    cases (sweepS (fun s v => calculate_risk_probabilityS s cuisine
        (max 1 (staff + v)) infractions kitchen region t) e [-5, -2, 0, 2, 5]).2 with
    | none => rfl
    | some staffSens =>
      simp only
      rw [show sweepS (fun s v => calculate_risk_probabilityS s cuisine staff
          (max 0 (infractions + v)) kitchen region t) e [-1, 0, 1, 2]
          = (e, (sweepS (fun s v => calculate_risk_probabilityS s cuisine staff
              (max 0 (infractions + v)) kitchen region t) e [-1, 0, 1, 2]).2)
        from Prod.ext (sweepS_fst _ (fun s v => calculate_risk_probabilityS_fst s
          cuisine region staff (max 0 (infractions + v)) kitchen t) e _) rfl]
      cases (sweepS (fun s v => calculate_risk_probabilityS s cuisine staff
          (max 0 (infractions + v)) kitchen region t) e [-1, 0, 1, 2]).2 with
      | none => rfl
      | some infrSens =>
        simp only
        rw [show sweepS (fun s v => calculate_risk_probabilityS s cuisine staff
            infractions (max 5 (kitchen + v)) region t) e [-10, -5, 0, 5, 10]
            = (e, (sweepS (fun s v => calculate_risk_probabilityS s cuisine staff
                infractions (max 5 (kitchen + v)) region t) e [-10, -5, 0, 5, 10]).2)
          from Prod.ext (sweepS_fst _ (fun s v => calculate_risk_probabilityS_fst s
            cuisine region staff infractions (max 5 (kitchen + v)) t) e _) rfl]
        cases (sweepS (fun s v => calculate_risk_probabilityS s cuisine staff
            infractions (max 5 (kitchen + v)) region t) e [-10, -5, 0, 5, 10]).2
          <;> rfl

/-- C10: the four prediction-side operations — `calculate_risk_probability`,
`predict_risk_level`, `predict_with_confidence` and `sensitivity_analysis`
(state-passing embeddings, with `log2f` standing for `np.log2`) — return
the engine state unchanged: in particular `prior_risk`,
`cuisine_risk_probs`, `staff_thresholds` and `infraction_weights` are
identical before and after each call. -/
theorem prediction_operations_frame (log2f : ℚ → ℚ) (e : Engine)
    (cuisine region : String) (staff infractions : ℤ) (kitchen : ℚ) (t : ℤ) :
    (calculate_risk_probabilityS e cuisine staff infractions kitchen region t).1
        = e ∧
    (predict_risk_levelS e cuisine staff infractions kitchen region t).1 = e ∧
    (predict_with_confidenceS log2f e cuisine staff infractions kitchen region t).1
        = e ∧
    (sensitivity_analysisS e cuisine staff infractions kitchen region t).1 = e :=
  ⟨calculate_risk_probabilityS_fst e cuisine region staff infractions kitchen t,
   predict_risk_levelS_fst e cuisine region staff infractions kitchen t,
   predict_with_confidenceS_fst log2f e cuisine region staff infractions kitchen t,
   sensitivity_analysisS_fst e cuisine region staff infractions kitchen t⟩
